import Mathlib

/-!
Verification of the protocol codecs of the pymeasure instrument drivers:
the Modbus-style frame codec of `eurotherm2404.py` (CRC16, request
encoding, response decoding, rate limiting) and the waveform-preamble /
curve decoder of `tek371A.py`.

Machine integers are modelled as `Nat`/`Int` (Python integers are
unbounded; every value that Python keeps below `2 ^ 16` is shown to stay
there).  Python floats are modelled as exact rationals `ℚ`.
-/

set_option maxRecDepth 100000

namespace Pymeasure

/-! ## CRC16 (eurotherm2404.py, function `CRC16`) -/

/-- One iteration of the inner loop `for j in range(8)` of `CRC16`:
record the least significant bit, shift right, and XOR with 0xA001 when
the recorded bit was set. -/
def crcBitStep (crc : Nat) : Nat :=
  let lsb := crc &&& 0x1
  let crc2 := crc >>> 1
  if lsb ≠ 0 then crc2 ^^^ 0xA001 else crc2

/-- Processing of one data byte by `CRC16`: `CRC ^= octet` followed by
eight iterations of the bit loop. -/
def crcOctet (crc octet : Nat) : Nat :=
  crcBitStep^[8] (crc ^^^ octet)

/-- `CRC16(data)` from eurotherm2404.py: the accumulator starts at
0xFFFF, every data byte is folded in with `crcOctet`, and the result is
returned as `[CRC & 0xFF, CRC >> 8]`, low byte first. -/
def CRC16 (data : List Nat) : List Nat :=
  let crc := data.foldl crcOctet 0xFFFF
  [crc &&& 0xFF, crc >>> 8]

/-! ## Request encoding (`Eurotherm2404.write`) -/

/-- `Eurotherm2404.byteMode` (length in bytes of a register). -/
def byteMode : Nat := 2

/-- Python `n.to_bytes(2, "big")`; agrees with Python for `n < 65536`
(Python raises `OverflowError` otherwise). -/
def toBytes2BE (n : Nat) : List Nat := [n / 256 % 256, n % 256]

/-- Python `i.to_bytes(2, "big", signed=True)`; agrees with Python for
`-2 ^ 15 ≤ i < 2 ^ 15` (two's complement, big endian). -/
def toBytes2BESigned (i : Int) : List Nat := toBytes2BE (i.emod 65536).toNat

/-- The `Functions.W` (0x10, write multiple registers) branch of
`Eurotherm2404.write`: device address, function code, 2-byte register
address, 2-byte element count, 1-byte byte count, each value as a signed
2-byte big-endian integer, then the CRC16 of all preceding bytes. -/
def encodeWrite (devAddress regAddress : Nat) (values : List Int) : List Nat :=
  let elements := values.length * byteMode / 2
  let data := [devAddress, 0x10] ++ toBytes2BE regAddress
      ++ toBytes2BE elements ++ [elements * 2]
      ++ values.flatMap toBytes2BESigned
  data ++ CRC16 data

/-! ## Response decoding (`Eurotherm2404.read`) -/

/-- Python `int.from_bytes(bs, "big")` (unsigned, big endian). -/
def natFromBytesBE (bs : List Nat) : Nat :=
  bs.foldl (fun acc b => 256 * acc + b) 0

/-- Python `int.from_bytes(bs, "big", signed=True)` for byte lists. -/
def intFromBytesBESigned (bs : List Nat) : Int :=
  let u := natFromBytesBE bs
  if 2 * u < 256 ^ bs.length then (u : Int) else (u : Int) - 256 ^ bs.length

/-- The ways `Eurotherm2404.read` can raise instead of returning:
`crcMismatch` is the `ConnectionError("Response CRC does not match.")`
raised in all three regular branches, the next three constructors are the
`ValueError`s for device error codes 0x02/0x03/0x04, `unknownReadError`
is the `ConnectionError` carrying the raw received bytes, and
`shortResponse` stands for `read_bytes` failing to deliver the requested
number of bytes. -/
inductive ReadError
  | shortResponse
  | crcMismatch
  | wrongStartAddress
  | variableDataError
  | operationError
  | unknownReadError (got tail : List Nat)
  deriving DecidableEq, Repr

/-- `Eurotherm2404.read`, modelled on the incoming byte stream:
`read_bytes(n)` takes the next `n` bytes of the stream.  The result is
the string the Python method returns (`none` for the W branch, which
returns nothing). -/
def eurothermRead : List Nat → Except ReadError (Option String)
  | a :: f :: rest =>
    if f = 0x03 then
      match rest with
      | L :: rest1 =>
        if L + 2 ≤ rest1.length then
          let rd := rest1.take (L + 2)
          if rd.drop L = CRC16 ([a, f, L] ++ rd.take L) then
            .ok (some (toString (intFromBytesBESigned (rd.take L))))
          else .error .crcMismatch
        else .error .shortResponse
      | [] => .error .shortResponse
    else if f = 0x10 then
      match rest with
      | b1 :: b2 :: b3 :: b4 :: c1 :: c2 :: _ =>
        if [c1, c2] = CRC16 [a, f, b1, b2, b3, b4] then .ok none
        else .error .crcMismatch
      | _ => .error .shortResponse
    else if f = 0x08 then
      match rest with
      | b1 :: b2 :: b3 :: b4 :: c1 :: c2 :: _ =>
        if [c1, c2] = CRC16 [a, f, b1, b2, b3, b4] then
          .ok (some (toString (natFromBytesBE [b3, b4])))
        else .error .crcMismatch
      | _ => .error .shortResponse
    else
      match rest with
      | e :: c1 :: c2 :: _ =>
        if e = 0x02 then .error .wrongStartAddress
        else if e = 0x03 then .error .variableDataError
        else if e = 0x04 then .error .operationError
        else .error (.unknownReadError [a, f] [e, c1, c2])
      | _ => .error .shortResponse
  | _ => .error .shortResponse

/-! ## Rate limiting (`Eurotherm2404.write` / `Eurotherm2404.read` pacing)

Wall-clock time is modelled by exact rationals.  `time.sleep(x)` advances
the clock by exactly `x`, and each operation additionally takes `dur ≥ 0`
time for the transfer itself; `gap` is the time that passed since the end
of the previous operation before the method is entered. -/

/-- One communication operation performed on a `Eurotherm2404` instance:
`isWrite` selects `write` versus `read`; for a read, `isAck` records
whether the response took the `Functions.W` (write-acknowledgement)
branch — the only branch of `read` that reaches line 237 and stores
`last_read_timestamp` (the R branch returns at line 214, the ECHO branch
at line 225, and the error branch raises).  For a write the flag is
irrelevant, since line 197 always runs.  `gap` is the time passing
before the method is entered, `dur` the time the transfer takes. -/
structure CommOp where
  isWrite : Bool
  isAck : Bool
  gap : ℚ
  dur : ℚ
  deriving DecidableEq

/-- The timing state of a `Eurotherm2404` instance: the current clock and
the `last_write_timestamp` / `last_read_timestamp` attributes. -/
structure CommState where
  now : ℚ
  lastWrite : ℚ
  lastRead : ℚ
  deriving DecidableEq

/-- The pacing at the top of `Eurotherm2404.write` and `read`:
`time.sleep(max(0, delay - actual_delay))` where `actual_delay` is clock
time minus the stored timestamp. -/
def paceSleep (delay elapsed : ℚ) : ℚ := max 0 (delay - elapsed)

/-- One `write` (`isWrite = true`) or `read` call: sleep per `paceSleep`,
perform the transfer, then store the completion time — in
`last_write_timestamp` after every write (line 197), but in
`last_read_timestamp` only when the read took the W branch (line 237 is
not reached from the R/ECHO returns or the raising error branch).
Returns the new state and the time at which the transfer starts. -/
def commStep (wd rd : ℚ) (s : CommState) (op : CommOp) : CommState × ℚ :=
  let t0 := s.now + op.gap
  if op.isWrite then
    let t1 := t0 + paceSleep wd (t0 - s.lastWrite)
    let t2 := t1 + op.dur
    (⟨t2, t2, s.lastRead⟩, t1)
  else
    let t1 := t0 + paceSleep rd (t0 - s.lastRead)
    let t2 := t1 + op.dur
    (⟨t2, s.lastWrite, if op.isAck then t2 else s.lastRead⟩, t1)

/-- Run a sequence of operations, collecting each operation together with
the time its transfer started. -/
def commRun (wd rd : ℚ) (s : CommState) : List CommOp → List (CommOp × ℚ)
  | [] => []
  | op :: ops =>
    let step := commStep wd rd s op
    (op, step.2) :: commRun wd rd step.1 ops

/-! ## Waveform preamble parsing (tek371A.py, `WaveformPreamble.__init__`)

Python strings are Lean strings; `float` results are modelled as exact
rationals (Python's binary floating point is idealised by `ℚ`, so `1E-3`
is the exact `1/1000`). -/

/-- Errors of the preamble parser: `indexError` for an out-of-range
subscript, `valueError` for a failing `int()`/`float()` conversion. -/
inductive PErr
  | indexError
  | valueError
  deriving DecidableEq, Repr

/-- The dynamically typed `step_size` / `step_offset` attributes: a float
when a recognised unit suffix was found, otherwise the raw string. -/
inductive StrOrNum
  | str (s : String)
  | num (q : ℚ)
  deriving DecidableEq, Repr

/-- The attributes set by `WaveformPreamble.__init__`. -/
structure WaveformPreamble where
  n_measures_readed : Int
  x_scale_factor : ℚ
  n_horizontal_resolution_points : Nat
  horizontal_range : ℚ
  y_scale_factor : ℚ
  n_vertical_resolution_points : Nat
  vertical_range : ℚ
  horizontal_offset : Int
  vertical_offset : Int
  horizontal_units : String
  vertical_units : String
  step_size : StrOrNum
  step_offset : StrOrNum
  deriving DecidableEq, Repr

/-- `l[i]` with Python's `IndexError`. -/
def pyIndex {α : Type} (l : List α) (i : Nat) : Except PErr α :=
  match l.get? i with
  | some x => .ok x
  | none => .error .indexError

/-- Python `s.split(c)` for a one-character separator (the source only
splits on `":"` and `"/"`): splits at every occurrence, keeping empty
parts. -/
def splitCharAux (sep : Char) (cur : List Char) : List Char → List (List Char)
  | [] => [cur.reverse]
  | c :: rest =>
    if c = sep then cur.reverse :: splitCharAux sep [] rest
    else splitCharAux sep (c :: cur) rest

/-- Python `s.split(c)` on strings. -/
def splitChar (sep : Char) (s : String) : List String :=
  (splitCharAux sep [] s.toList).map fun cs => String.mk cs

/-- Python `s.replace(" ", "")`: remove every space. -/
def removeSpaces (s : String) : String :=
  String.mk (s.toList.filter fun c => !(c = ' '))

/-- `s.split(":")[1].replace(" ", "")`, the accessor used for every fixed
preamble field. -/
def fieldValue (s : String) : Except PErr String := do
  let v ← pyIndex (splitChar ':' s) 1
  pure (removeSpaces v)

/-- Whether `p` occurs at the head of `s` (on character lists). -/
def strLeads : List Char → List Char → Bool
  | [], _ => true
  | _ :: _, [] => false
  | a :: as, b :: bs => a = b && strLeads as bs

/-- Python `s.removeprefix(pat)`. -/
def dropStart (pat s : String) : String :=
  if strLeads pat.toList s.toList then String.mk (s.toList.drop pat.length) else s

/-- Python `s.removesuffix(pat)`. -/
def dropEnd (pat s : String) : String :=
  if strLeads pat.toList.reverse s.toList.reverse then
    String.mk (s.toList.take (s.toList.length - pat.length))
  else s

/-- Python `pat in s` (substring containment) on character lists. -/
def hasSubAux (p : List Char) : List Char → Bool
  | [] => strLeads p []
  | c :: rest => strLeads p (c :: rest) || hasSubAux p rest

/-- Python `pat in s` (substring containment). -/
def hasSubStr (pat s : String) : Bool := hasSubAux pat.toList s.toList

/-- Python `s.lstrip(" ")`. -/
def lstripSpace (s : String) : String :=
  String.mk (s.toList.dropWhile fun c => c = ' ')

/-- Numeric value of a digit list (most significant first). -/
def digitsVal (cs : List Char) : Nat :=
  cs.foldl (fun a c => 10 * a + (c.toNat - 48)) 0

/-- A non-empty all-digit character list, as a number. -/
def parseDigits (cs : List Char) : Option Nat :=
  if cs ≠ [] ∧ cs.all Char.isDigit then some (digitsVal cs) else none

/-- Split a leading `+`/`-` sign off a character list; `true` means
negative. -/
def splitSign : List Char → Bool × List Char
  | '+' :: cs => (false, cs)
  | '-' :: cs => (true, cs)
  | cs => (false, cs)

/-- Python `int(s)` for decimal strings: optional surrounding whitespace,
optional sign, digits.  (Underscored digit groups are not modelled.) -/
def pyInt (s : String) : Option Int :=
  let cs := ((s.toList.dropWhile Char.isWhitespace).reverse.dropWhile
    Char.isWhitespace).reverse
  let sd := splitSign cs
  (parseDigits sd.2).map fun n => if sd.1 then -(n : Int) else (n : Int)

/-- `10 ^ e` in `ℚ` for an integer exponent. -/
def pow10 (e : Int) : ℚ :=
  if 0 ≤ e then (10 : ℚ) ^ e.toNat else 1 / (10 : ℚ) ^ (-e).toNat

/-- Python `float(s)` for finite decimal notation
(`[sign] (d+ [. d*] | . d+) [(e|E) [sign] d+]` with optional surrounding
whitespace), as an exact rational.  `inf`/`nan` and underscored digit
groups are not modelled. -/
def pyFloat (s : String) : Option ℚ :=
  let cs := ((s.toList.dropWhile Char.isWhitespace).reverse.dropWhile
    Char.isWhitespace).reverse
  let sd := splitSign cs
  let mantExp := sd.2.span fun c => !(c = 'e' || c = 'E')
  let expVal : Option Int :=
    match mantExp.2 with
    | [] => some 0
    | _ :: ecs =>
      let esd := splitSign ecs
      (parseDigits esd.2).map fun n => if esd.1 then -(n : Int) else (n : Int)
  match expVal with
  | none => none
  | some e =>
    let ipFp := mantExp.1.span fun c => !(c = '.')
    let ip := ipFp.1
    let fp := match ipFp.2 with
      | [] => ([] : List Char)
      | _ :: r => r
    if ip.all Char.isDigit ∧ fp.all Char.isDigit ∧ (ip ≠ [] ∨ fp ≠ []) then
      let base : ℚ :=
        ((digitsVal ip : ℚ) * (10 : ℚ) ^ fp.length + (digitsVal fp : ℚ)) /
          (10 : ℚ) ^ fp.length
      some ((if sd.1 then -base else base) * pow10 e)
    else none

/-- `int(s)` lifted to the parser's error monad. -/
def pyIntE (s : String) : Except PErr Int :=
  match pyInt s with
  | some i => .ok i
  | none => .error .valueError

/-- `float(s)` lifted to the parser's error monad. -/
def pyFloatE (s : String) : Except PErr ℚ :=
  match pyFloat s with
  | some q => .ok q
  | none => .error .valueError

/-- The `step_size` / `step_offset` conversion of
`WaveformPreamble.__init__`: a value containing `"mV"` is parsed as a
float of the string with that suffix removed and scaled by `1E-3`, else a
value containing `"V"` is parsed as a float of the string with that
suffix removed, and any other value is left as the raw string. -/
def convStep (s : String) : Except PErr StrOrNum :=
  if hasSubStr "mV" s then do
    let q ← pyFloatE (dropEnd "mV" s)
    pure (.num (q * (1 / 1000)))
  else if hasSubStr "V" s then do
    let q ← pyFloatE (dropEnd "V" s)
    pure (.num q)
  else pure (.str s)

/-- `WaveformPreamble.__init__(preamble_array)`, with the attribute
assignments performed in source order (lines 67-90 of tek371A.py). -/
def parsePreamble (arr : List String) : Except PErr WaveformPreamble := do
  let f0 ← pyIndex arr 0
  let wfId := splitChar '/' f0
  let f2 ← pyIndex arr 2
  let v2 ← fieldValue f2
  let nMeasures ← pyIntE v2
  let f4 ← pyIndex arr 4
  let v4 ← fieldValue f4
  let xScale ← pyFloatE v4
  let nH : Nat := 1024
  let hRange : ℚ := xScale * (nH : ℚ)
  let f8 ← pyIndex arr 8
  let v8 ← fieldValue f8
  let yScale ← pyFloatE v8
  let nV : Nat := 1024
  let vRange : ℚ := yScale * (nV : ℚ)
  let f6 ← pyIndex arr 6
  let v6 ← fieldValue f6
  let hOffset ← pyIntE v6
  let f10 ← pyIndex arr 10
  let v10 ← fieldValue f10
  let vOffset ← pyIntE v10
  let f7 ← pyIndex arr 7
  let hUnits ← fieldValue f7
  let f11 ← pyIndex arr 11
  let vUnits ← fieldValue f11
  let seg3 ← pyIndex wfId 3
  let stepSize ← convStep (lstripSpace (dropStart "STEP" seg3))
  let seg4 ← pyIndex wfId 4
  let stepOffset ← convStep (lstripSpace (dropStart "OFFSET" seg4))
  pure ⟨nMeasures, xScale, nH, hRange, yScale, nV, vRange, hOffset, vOffset,
    hUnits, vUnits, stepSize, stepOffset⟩

/-! ## Curve decoding (tek371A.py, `Curve.__init__`) -/

/-- Python list slicing `l[start:stop]` with (possibly negative) integer
bounds. -/
def pySlice {α : Type} (l : List α) (start stop : Int) : List α :=
  let n : Int := l.length
  let s := if start < 0 then max 0 (n + start) else min start n
  let e := if stop < 0 then max 0 (n + stop) else min stop n
  (l.drop s.toNat).take (e - s).toNat

/-- The derived attributes of a `Curve` instance. -/
structure Curve where
  raw_points_coordinates : List Nat
  points_coordinates : List (Int × Int)
  points : List (ℚ × ℚ)
  deriving DecidableEq, Repr

/-- `Curve.__init__` from tek371A.py: slice the point-data region out of
the raw buffer, then walk it at offsets that are multiples of 4 leaving
at least `n_bytes_for_x_coordinate + n_bytes_for_y_coordinate` bytes,
decoding big-endian unsigned coordinates, subtracting the preamble
offsets, clamping negatives to 0, and scaling by the preamble scale
factors. -/
def buildCurve (pre : WaveformPreamble) (nHead nData nChecksum nX nY : Nat)
    (raw : List Nat) : Curve :=
  let start : Int := ((nHead : Int) + nData)
  let stop : Int := (raw.length : Int) - nChecksum
  let rawPts := pySlice raw start stop
  let n := rawPts.length
  let idxs := (List.range n).filter fun i => decide (i % 4 = 0 ∧ i + (nX + nY) ≤ n)
  let coordAt := fun (i : Nat) =>
    let cx : Int := (natFromBytesBE ((rawPts.drop i).take nX) : Int) - pre.horizontal_offset
    let cx := if cx < 0 then 0 else cx
    let cy : Int := (natFromBytesBE ((rawPts.drop (i + nX)).take nY) : Int) - pre.vertical_offset
    let cy := if cy < 0 then 0 else cy
    (cx, cy)
  let coords := idxs.map coordAt
  ⟨rawPts, coords,
    coords.map fun c => ((c.1 : ℚ) * pre.x_scale_factor, (c.2 : ℚ) * pre.y_scale_factor)⟩

/-! ## Helper lemmas about the CRC accumulator -/

lemma crcBitStep_lt {crc : Nat} (h : crc < 65536) : crcBitStep crc < 65536 := by
  have h1 : crc >>> 1 < 65536 := by
    rw [Nat.shiftRight_eq_div_pow]
    omega
  have h2 : crc >>> 1 ^^^ 0xA001 < 65536 := by
    have e : (65536 : Nat) = 2 ^ 16 := by norm_num
    rw [e] at h1 ⊢
    exact Nat.xor_lt_two_pow h1 (by norm_num)
  simp only [crcBitStep]
  split <;> assumption

lemma iterate_crcBitStep_lt (n : Nat) {crc : Nat} (h : crc < 65536) :
    crcBitStep^[n] crc < 65536 := by
  induction n generalizing crc with
  | zero => simpa using h
  | succ k ih =>
    rw [Function.iterate_succ_apply]
    exact ih (crcBitStep_lt h)

lemma crcOctet_lt {crc b : Nat} (hc : crc < 65536) (hb : b < 256) :
    crcOctet crc b < 65536 := by
  have hx : crc ^^^ b < 65536 := by
    have e : (65536 : Nat) = 2 ^ 16 := by norm_num
    have hb2 : b < 65536 := by omega
    rw [e] at hc hb2 ⊢
    exact Nat.xor_lt_two_pow hc hb2
  simpa only [crcOctet] using iterate_crcBitStep_lt 8 hx

lemma crcFold_lt {data : List Nat} (h : ∀ b ∈ data, b < 256) :
    data.foldl crcOctet 0xFFFF < 65536 := by
  suffices H : ∀ (l : List Nat) (acc : Nat), acc < 65536 → (∀ b ∈ l, b < 256) →
      l.foldl crcOctet acc < 65536 by
    exact H data 0xFFFF (by norm_num) h
  intro l
  induction l with
  | nil =>
    intro acc ha _
    simpa using ha
  | cons x xs ih =>
    intro acc ha hb
    simp only [List.foldl_cons]
    exact ih _ (crcOctet_lt ha (hb x (by simp))) fun b hbm => hb b (by simp [hbm])

/-! ## Claim theorems for the Eurotherm codec -/

/-- C1: `CRC16` initialises an accumulator to 0xFFFF, XORs each input
byte into it and runs eight shift/XOR-0xA001 iterations per byte, and
returns the low byte of the final accumulator followed by its high byte;
it is bit-exact with standard Modbus CRC16 (check value 0x4B37 on the
bytes of "123456789"), and `CRC16([1,16,1,17,0,1,2,0,0])` equals the two
CRC bytes appended when encoding that write frame (register 0x0111,
single value 0, device address 1). -/
theorem CRC16_correct :
    (∀ data : List Nat, (∀ b ∈ data, b < 256) →
      CRC16 data =
        [data.foldl crcOctet 0xFFFF % 256, data.foldl crcOctet 0xFFFF / 256] ∧
      data.foldl crcOctet 0xFFFF % 256 < 256 ∧
      data.foldl crcOctet 0xFFFF / 256 < 256) ∧
    CRC16 [49, 50, 51, 52, 53, 54, 55, 56, 57] = [0x37, 0x4B] ∧
    encodeWrite 1 0x0111 [0] =
      [1, 16, 1, 17, 0, 1, 2, 0, 0] ++ CRC16 [1, 16, 1, 17, 0, 1, 2, 0, 0] := by
  refine ⟨fun data h => ?_, by decide, by decide⟩
  have hlt := crcFold_lt h
  refine ⟨?_, Nat.mod_lt _ (by norm_num), Nat.div_lt_of_lt_mul (by omega)⟩
  simp only [CRC16]
  have hm : data.foldl crcOctet 0xFFFF &&& 0xFF = data.foldl crcOctet 0xFFFF % 256 := by
    have := Nat.and_pow_two_sub_one_eq_mod (data.foldl crcOctet 0xFFFF) 8
    norm_num at this
    exact this
  have hd : data.foldl crcOctet 0xFFFF >>> 8 = data.foldl crcOctet 0xFFFF / 256 := by
    rw [Nat.shiftRight_eq_div_pow]
  rw [hm, hd]

/-- Witness for C1 at the data of a concrete read response frame. -/
theorem CRC16_correct_witness : CRC16 [1, 3, 2, 0, 1] = [121, 132] := by
  have h := (CRC16_correct.1 [1, 3, 2, 0, 1] (by decide)).1
  rw [h]
  decide

/-- C2: a WRITE_MULTIPLE frame is device address, function code 0x10,
big-endian register address, 16-bit element count, 1-byte byte count,
each value as a signed 2-byte big-endian integer, then the CRC16; in
particular encoding register 0x0123, device address 1, single value 1
gives `[1,16,1,35,0,1,2,0,1]` followed by its CRC16. -/
theorem encodeWrite_correct :
    (∀ (d r : Nat) (vs : List Int), r < 65536 → vs.length ≤ 127 →
      encodeWrite d r vs =
        ([d, 0x10, r / 256, r % 256, 0, vs.length, 2 * vs.length]
            ++ vs.flatMap toBytes2BESigned)
          ++ CRC16 ([d, 0x10, r / 256, r % 256, 0, vs.length, 2 * vs.length]
            ++ vs.flatMap toBytes2BESigned)) ∧
    encodeWrite 1 0x0123 [1] =
      [1, 16, 1, 35, 0, 1, 2, 0, 1] ++ CRC16 [1, 16, 1, 35, 0, 1, 2, 0, 1] := by
  refine ⟨fun d r vs hr hl => ?_, by decide⟩
  have h1 : vs.length * byteMode / 2 = vs.length := by
    simp [byteMode]
  have h2 : toBytes2BE r = [r / 256, r % 256] := by
    simp only [toBytes2BE]
    have : r / 256 < 256 := Nat.div_lt_of_lt_mul (by omega)
    rw [Nat.mod_eq_of_lt this]
  have h3 : toBytes2BE vs.length = [0, vs.length] := by
    have hlen : vs.length < 256 := by omega
    simp only [toBytes2BE]
    rw [Nat.div_eq_of_lt hlen, Nat.zero_mod, Nat.mod_eq_of_lt hlen]
  simp only [encodeWrite, h1, h2, h3]
  simp [List.append_assoc, Nat.mul_comm]

/-- Witness for C2: the general frame layout at a concrete input. -/
theorem encodeWrite_correct_witness :
    encodeWrite 1 291 [1] =
      ([1, 0x10, 291 / 256, 291 % 256, 0, 1, 2 * 1]
          ++ [1].flatMap toBytes2BESigned)
        ++ CRC16 ([1, 0x10, 291 / 256, 291 % 256, 0, 1, 2 * 1]
          ++ [1].flatMap toBytes2BESigned) := by
  have h := encodeWrite_correct.1 1 291 [1] (by decide) (by decide)
  simpa using h

/-- C3: a READ (0x03) response with verifying CRC is decoded by reading
one length byte, then `length + 2` bytes, and the data bytes are returned
as the decimal string of their big-endian signed integer value. -/
theorem eurothermRead_readBranch (a L : Nat) (D C rest : List Nat)
    (hD : D.length = L) (hC : C = CRC16 ([a, 3, L] ++ D)) :
    eurothermRead (a :: 3 :: L :: (D ++ C ++ rest)) =
      .ok (some (toString (intFromBytesBESigned D))) := by
  subst hC
  have hClen : (CRC16 (a :: 3 :: L :: D)).length = 2 := by
    simp [CRC16]
  have hDC : (D ++ CRC16 (a :: 3 :: L :: D)).length = L + 2 := by
    simp [hD, hClen]
  have hlen : L + 2 ≤ D.length + ((CRC16 (a :: 3 :: L :: D)).length + rest.length) := by
    rw [hD, hClen]
    omega
  have h1 : List.take (L + 2) (D ++ (CRC16 (a :: 3 :: L :: D) ++ rest)) =
      D ++ CRC16 (a :: 3 :: L :: D) := by
    rw [← List.append_assoc]
    exact List.take_left' hDC
  have h2 : List.drop L (D ++ CRC16 (a :: 3 :: L :: D)) = CRC16 (a :: 3 :: L :: D) :=
    List.drop_left' hD
  have h3 : List.take L (D ++ CRC16 (a :: 3 :: L :: D)) = D := List.take_left' hD
  simp [eurothermRead, hlen, h1, h2, h3]

/-- Witness for C3: the concrete scenario of the spec, value string "1". -/
theorem eurothermRead_readBranch_witness :
    eurothermRead (1 :: 3 :: 2 :: ([0, 1] ++ CRC16 [1, 3, 2, 0, 1] ++ [])) =
      .ok (some "1") := by
  have h := eurothermRead_readBranch 1 2 [0, 1] (CRC16 [1, 3, 2, 0, 1]) []
    (by decide) rfl
  rw [h]
  rfl

/-- C4: in each of the READ, WRITE and ECHO branches, a response whose
trailing two CRC bytes differ from the CRC16 of the preceding bytes
makes `read` raise the checksum-mismatch error and return no value. -/
theorem eurothermRead_crcMismatch :
    (∀ (a L : Nat) (D C rest : List Nat), D.length = L → C.length = 2 →
      C ≠ CRC16 ([a, 3, L] ++ D) →
      eurothermRead (a :: 3 :: L :: (D ++ C ++ rest)) = .error .crcMismatch) ∧
    (∀ (a b1 b2 b3 b4 c1 c2 : Nat) (rest : List Nat),
      [c1, c2] ≠ CRC16 [a, 0x10, b1, b2, b3, b4] →
      eurothermRead (a :: 0x10 :: b1 :: b2 :: b3 :: b4 :: c1 :: c2 :: rest) =
        .error .crcMismatch) ∧
    (∀ (a b1 b2 b3 b4 c1 c2 : Nat) (rest : List Nat),
      [c1, c2] ≠ CRC16 [a, 0x08, b1, b2, b3, b4] →
      eurothermRead (a :: 0x08 :: b1 :: b2 :: b3 :: b4 :: c1 :: c2 :: rest) =
        .error .crcMismatch) := by
  refine ⟨fun a L D C rest hD hClen hC => ?_, fun a b1 b2 b3 b4 c1 c2 rest hC => ?_,
    fun a b1 b2 b3 b4 c1 c2 rest hC => ?_⟩
  · have hC' : C ≠ CRC16 (a :: 3 :: L :: D) := by
      simpa using hC
    have hDC : (D ++ C).length = L + 2 := by
      simp [hD, hClen]
    have hlen : L + 2 ≤ D.length + (C.length + rest.length) := by
      rw [hD, hClen]
      omega
    have h1 : List.take (L + 2) (D ++ (C ++ rest)) = D ++ C := by
      rw [← List.append_assoc]
      exact List.take_left' hDC
    have h2 : List.drop L (D ++ C) = C := List.drop_left' hD
    have h3 : List.take L (D ++ C) = D := List.take_left' hD
    simp [eurothermRead, hlen, h1, h2, h3, hC']
  · simp [eurothermRead, hC]
  · simp [eurothermRead, hC]

/-- Witness for C4: tampered CRC bytes `[0, 0]` in each branch. -/
theorem eurothermRead_crcMismatch_witness :
    eurothermRead (1 :: 3 :: 2 :: ([0, 1] ++ [0, 0] ++ [])) = .error .crcMismatch ∧
    eurothermRead (1 :: 0x10 :: 1 :: 35 :: 0 :: 1 :: 0 :: 0 :: []) =
      .error .crcMismatch ∧
    eurothermRead (1 :: 0x08 :: 0 :: 0 :: 0 :: 5 :: 0 :: 0 :: []) =
      .error .crcMismatch := by
  exact ⟨eurothermRead_crcMismatch.1 1 2 [0, 1] [0, 0] [] (by decide) (by decide)
      (by decide),
    eurothermRead_crcMismatch.2.1 1 1 35 0 1 0 0 [] (by decide),
    eurothermRead_crcMismatch.2.2 1 0 0 0 5 0 0 [] (by decide)⟩

/-- C5: a response whose function byte is none of READ/WRITE/ECHO makes
`read` consume three more bytes and raise: error codes 0x02, 0x03, 0x04
map to the three distinct device-error kinds, and any other code raises
the transport error carrying the raw bytes received. -/
theorem eurothermRead_errorBranch :
    (∀ (a f e c1 c2 : Nat) (rest : List Nat),
      f ≠ 0x03 → f ≠ 0x10 → f ≠ 0x08 →
      eurothermRead (a :: f :: e :: c1 :: c2 :: rest) =
        if e = 0x02 then .error .wrongStartAddress
        else if e = 0x03 then .error .variableDataError
        else if e = 0x04 then .error .operationError
        else .error (.unknownReadError [a, f] [e, c1, c2])) ∧
    (ReadError.wrongStartAddress ≠ ReadError.variableDataError ∧
      ReadError.wrongStartAddress ≠ ReadError.operationError ∧
      ReadError.variableDataError ≠ ReadError.operationError) := by
  refine ⟨fun a f e c1 c2 rest h3 h16 h8 => ?_, by decide, by decide, by decide⟩
  simp [eurothermRead, h3, h16, h8]

/-- Witness for C5: device address 1, exception function byte 0x83. -/
theorem eurothermRead_errorBranch_witness :
    eurothermRead (1 :: 0x83 :: 2 :: 0 :: 0 :: []) =
      (if (2 : Nat) = 0x02 then Except.error ReadError.wrongStartAddress
        else if (2 : Nat) = 0x03 then Except.error ReadError.variableDataError
        else if (2 : Nat) = 0x04 then Except.error ReadError.operationError
        else Except.error (ReadError.unknownReadError [1, 0x83] [2, 0, 0])) := by
  exact eurothermRead_errorBranch.1 0x01 0x83 2 0 0 [] (by decide) (by decide)
    (by decide)

/-! ## Rate-limiting lemmas -/

lemma chainLe_of_le {c a b : ℚ} {l : List ℚ} (hba : b ≤ a)
    (h : List.Chain (fun t u => t + c ≤ u) a l) :
    List.Chain (fun t u => t + c ≤ u) b l := by
  cases h with
  | nil => exact List.Chain.nil
  | cons hr hc => exact List.Chain.cons (le_trans (by linarith) hr) hc

/-- C9 counterexample: two consecutive R-branch reads are NOT separated
by `read_delay`.  Starting at clock 100 with both timestamps 0 (as after
`__init__`), two plain register reads both start at time 100: the first
read does not store `last_read_timestamp` (the R branch returns before
line 237), so the second read's sleep is computed against the stale
timestamp 0 and is zero.  This refutes the claim that every read sleeps
relative to the previous read's completion and that consecutive
operations of the same kind are always separated by the configured
delay. -/
theorem commRun_unpacedReads_counterexample :
    ¬ List.Chain (fun t u => t + 1 ≤ u) (CommState.mk 100 0 0).lastRead
      (((commRun 1 1 ⟨100, 0, 0⟩
          [⟨false, false, 0, 0⟩, ⟨false, false, 0, 0⟩]).filter
        fun p => !p.1.isWrite).map fun p => p.2) := by
  intro h
  have hrun : (((commRun 1 1 (⟨100, 0, 0⟩ : CommState)
      [⟨false, false, 0, 0⟩, ⟨false, false, 0, 0⟩]).filter
        fun p => !p.1.isWrite).map fun p => p.2) = [100, 100] := by
    norm_num [commRun, commStep, paceSleep, max_def]
  rw [hrun] at h
  cases h with
  | cons h1 htail =>
    cases htail with
    | cons h2 _ =>
      norm_num at h2

/-- C9 (amended): every write transfer starts at least `write_delay`
after the stored last-write completion time, so consecutive write
transfer starts are at least `write_delay` apart; for reads, the sleep
is computed against `last_read_timestamp`, which only the
write-acknowledgement (W) branch of `read` stores, so the reads that are
guaranteed pairwise separated by at least `read_delay` are the W-branch
reads.  (`List.Chain` seeded with the stored timestamp states this for
the chronological start times of each kind.) -/
theorem commRun_paced (wd rd : ℚ) (s : CommState) (ops : List CommOp)
    (h : ∀ op ∈ ops, 0 ≤ op.dur) :
    List.Chain (fun t u => t + wd ≤ u) s.lastWrite
      (((commRun wd rd s ops).filter fun p => p.1.isWrite).map fun p => p.2) ∧
    List.Chain (fun t u => t + rd ≤ u) s.lastRead
      (((commRun wd rd s ops).filter
        fun p => !p.1.isWrite && p.1.isAck).map fun p => p.2) := by
  induction ops generalizing s with
  | nil => exact ⟨List.Chain.nil, List.Chain.nil⟩
  | cons op ops ih =>
    have hdur : 0 ≤ op.dur := h op (by simp)
    have hrest : ∀ o ∈ ops, 0 ≤ o.dur := fun o ho => h o (by simp [ho])
    cases hb : op.isWrite with
    | true =>
      simp only [commRun, commStep, hb, if_true]
      have ihs := ih ⟨s.now + op.gap + paceSleep wd (s.now + op.gap - s.lastWrite)
          + op.dur,
        s.now + op.gap + paceSleep wd (s.now + op.gap - s.lastWrite) + op.dur,
        s.lastRead⟩ hrest
      simp only at ihs
      rw [List.filter_cons_of_pos (by simp [hb]),
        List.filter_cons_of_neg (by simp [hb]), List.map_cons]
      dsimp only
      refine ⟨List.Chain.cons ?_ (chainLe_of_le (by linarith) ihs.1), ihs.2⟩
      have hmax : wd - (s.now + op.gap - s.lastWrite) ≤
          paceSleep wd (s.now + op.gap - s.lastWrite) := le_max_right _ _
      linarith
    | false =>
      cases hak : op.isAck with
      | true =>
        simp only [commRun, commStep, hb, Bool.false_eq_true, if_false, hak,
          if_true]
        have ihs := ih ⟨s.now + op.gap + paceSleep rd (s.now + op.gap - s.lastRead)
            + op.dur,
          s.lastWrite,
          s.now + op.gap + paceSleep rd (s.now + op.gap - s.lastRead) + op.dur⟩
          hrest
        simp only at ihs
        rw [List.filter_cons_of_neg (by simp [hb]),
          List.filter_cons_of_pos (by simp [hb, hak]), List.map_cons]
        dsimp only
        refine ⟨ihs.1, List.Chain.cons ?_ (chainLe_of_le (by linarith) ihs.2)⟩
        have hmax : rd - (s.now + op.gap - s.lastRead) ≤
            paceSleep rd (s.now + op.gap - s.lastRead) := le_max_right _ _
        linarith
      | false =>
        simp only [commRun, commStep, hb, Bool.false_eq_true, if_false, hak]
        have ihs := ih ⟨s.now + op.gap + paceSleep rd (s.now + op.gap - s.lastRead)
            + op.dur,
          s.lastWrite,
          s.lastRead⟩ hrest
        simp only at ihs
        rw [List.filter_cons_of_neg (by simp [hb]),
          List.filter_cons_of_neg (by simp [hb, hak])]
        exact ihs

/-- Witness for C9 (amended): a write, an acknowledged read, a plain
read and another acknowledged read, unit delays, zero start. -/
theorem commRun_paced_witness :
    List.Chain (fun t u => t + 1 ≤ u) (CommState.mk 0 0 0).lastWrite
      (((commRun 1 1 ⟨0, 0, 0⟩
          [⟨true, false, 0, 0⟩, ⟨false, true, 0, 0⟩, ⟨false, false, 0, 0⟩,
            ⟨false, true, 0, 0⟩]).filter
        fun p => p.1.isWrite).map fun p => p.2) ∧
    List.Chain (fun t u => t + 1 ≤ u) (CommState.mk 0 0 0).lastRead
      (((commRun 1 1 ⟨0, 0, 0⟩
          [⟨true, false, 0, 0⟩, ⟨false, true, 0, 0⟩, ⟨false, false, 0, 0⟩,
            ⟨false, true, 0, 0⟩]).filter
        fun p => !p.1.isWrite && p.1.isAck).map fun p => p.2) := by
  exact commRun_paced 1 1 ⟨0, 0, 0⟩
    [⟨true, false, 0, 0⟩, ⟨false, true, 0, 0⟩, ⟨false, false, 0, 0⟩,
      ⟨false, true, 0, 0⟩] (by decide)

/-! ## Preamble-parser lemmas -/

lemma except_bind_ok {ε α β : Type} {x : Except ε α} {f : α → Except ε β} {b : β} :
    x >>= f = .ok b ↔ ∃ a, x = .ok a ∧ f a = .ok b := by
  cases x <;> simp [Bind.bind, Except.bind]

lemma except_pure_ok {ε α : Type} {a b : α} :
    (pure a : Except ε α) = .ok b ↔ a = b := by
  simp [pure, Except.pure]

/-- C6: a successful preamble parse takes its fields from the fixed
0-indexed positions 2, 4, 6, 7, 8, 10, 11 (sample count as integer after
the colon, x scale factor as float, horizontal offset as int, horizontal
units, y scale factor as float, vertical offset as int, vertical units),
sets the ranges to scale factor times 1024, and obtains step size and
step offset from the 4th and 5th slash-separated segments of field 0
after stripping the "STEP" resp. "OFFSET" label, with the `convStep`
suffix rule ("mV" means value times 1e-3, "V" means the value as-is). -/
theorem parsePreamble_fields (arr : List String) (p : WaveformPreamble)
    (h : parsePreamble arr = .ok p) :
    (∃ f v, pyIndex arr 2 = .ok f ∧ fieldValue f = .ok v ∧
      pyIntE v = .ok p.n_measures_readed) ∧
    (∃ f v, pyIndex arr 4 = .ok f ∧ fieldValue f = .ok v ∧
      pyFloatE v = .ok p.x_scale_factor) ∧
    (∃ f v, pyIndex arr 6 = .ok f ∧ fieldValue f = .ok v ∧
      pyIntE v = .ok p.horizontal_offset) ∧
    (∃ f, pyIndex arr 7 = .ok f ∧ fieldValue f = .ok p.horizontal_units) ∧
    (∃ f v, pyIndex arr 8 = .ok f ∧ fieldValue f = .ok v ∧
      pyFloatE v = .ok p.y_scale_factor) ∧
    (∃ f v, pyIndex arr 10 = .ok f ∧ fieldValue f = .ok v ∧
      pyIntE v = .ok p.vertical_offset) ∧
    (∃ f, pyIndex arr 11 = .ok f ∧ fieldValue f = .ok p.vertical_units) ∧
    p.horizontal_range = p.x_scale_factor * 1024 ∧
    p.vertical_range = p.y_scale_factor * 1024 ∧
    p.n_horizontal_resolution_points = 1024 ∧
    p.n_vertical_resolution_points = 1024 ∧
    (∃ f0, pyIndex arr 0 = .ok f0 ∧
      (∃ seg, pyIndex (splitChar '/' f0) 3 = .ok seg ∧
        convStep (lstripSpace (dropStart "STEP" seg)) = .ok p.step_size) ∧
      (∃ seg, pyIndex (splitChar '/' f0) 4 = .ok seg ∧
        convStep (lstripSpace (dropStart "OFFSET" seg)) = .ok p.step_offset)) := by
  simp only [parsePreamble, except_bind_ok, except_pure_ok] at h
  obtain ⟨f0, h0, f2, h2, v2, hv2, n2, hn2, f4, h4, v4, hv4, x4, hx4,
    f8, h8, v8, hv8, y8, hy8, f6, h6, v6, hv6, o6, ho6, f10, h10, v10, hv10,
    o10, ho10, f7, h7, u7, hu7, f11, h11, u11, hu11, s3, hs3, st3, hst3,
    s4, hs4, st4, hst4, hp⟩ := h
  subst hp
  refine ⟨⟨f2, v2, h2, hv2, hn2⟩, ⟨f4, v4, h4, hv4, hx4⟩, ⟨f6, v6, h6, hv6, ho6⟩,
    ⟨f7, h7, hu7⟩, ⟨f8, v8, h8, hv8, hy8⟩, ⟨f10, v10, h10, hv10, ho10⟩,
    ⟨f11, h11, hu11⟩, by norm_num, by norm_num, rfl, rfl,
    f0, h0, ⟨s3, hs3, hst3⟩, ⟨s4, hs4, hst4⟩⟩

/-- A preamble field array in the shape documented in tek371A.py. -/
def example371Arr : List String :=
  ["WFMPRE WFID:INDEX 3/VERT 500MA/HORIZ 1V/STEP 5V/OFFSET 10mV", "ENCDG:BIN",
    "NR.PT: 3", "PT.FMT:XY", "XMULT:+1.0E-2", "XZERO:0", "XOFF: 12", "XUNIT:V",
    "YMULT:5e-3", "YZERO:0", "YOFF:-2", "YUNIT:A"]

/-- The parse result of `example371Arr` (the parse succeeds, so the
fallback record is never used). -/
def example371Pre : WaveformPreamble :=
  match parsePreamble example371Arr with
  | .ok p => p
  | .error _ => ⟨0, 0, 0, 0, 0, 0, 0, 0, 0, "", "", .str "", .str ""⟩

/-- Witness for C6: the field map applied to a concrete preamble array. -/
theorem parsePreamble_fields_witness :
    (∃ f v, pyIndex example371Arr 2 = .ok f ∧ fieldValue f = .ok v ∧
      pyIntE v = .ok example371Pre.n_measures_readed) ∧
    (∃ f v, pyIndex example371Arr 4 = .ok f ∧ fieldValue f = .ok v ∧
      pyFloatE v = .ok example371Pre.x_scale_factor) ∧
    (∃ f v, pyIndex example371Arr 6 = .ok f ∧ fieldValue f = .ok v ∧
      pyIntE v = .ok example371Pre.horizontal_offset) ∧
    (∃ f, pyIndex example371Arr 7 = .ok f ∧
      fieldValue f = .ok example371Pre.horizontal_units) ∧
    (∃ f v, pyIndex example371Arr 8 = .ok f ∧ fieldValue f = .ok v ∧
      pyFloatE v = .ok example371Pre.y_scale_factor) ∧
    (∃ f v, pyIndex example371Arr 10 = .ok f ∧ fieldValue f = .ok v ∧
      pyIntE v = .ok example371Pre.vertical_offset) ∧
    (∃ f, pyIndex example371Arr 11 = .ok f ∧
      fieldValue f = .ok example371Pre.vertical_units) ∧
    example371Pre.horizontal_range = example371Pre.x_scale_factor * 1024 ∧
    example371Pre.vertical_range = example371Pre.y_scale_factor * 1024 ∧
    example371Pre.n_horizontal_resolution_points = 1024 ∧
    example371Pre.n_vertical_resolution_points = 1024 ∧
    (∃ f0, pyIndex example371Arr 0 = .ok f0 ∧
      (∃ seg, pyIndex (splitChar '/' f0) 3 = .ok seg ∧
        convStep (lstripSpace (dropStart "STEP" seg)) = .ok example371Pre.step_size) ∧
      (∃ seg, pyIndex (splitChar '/' f0) 4 = .ok seg ∧
        convStep (lstripSpace (dropStart "OFFSET" seg)) = .ok example371Pre.step_offset)) :=
  parsePreamble_fields example371Arr example371Pre rfl

/-! ## C8: error behaviour of the preamble parser -/

lemma except_ok_bind {ε α β : Type} (a : α) (f : α → Except ε β) :
    (Except.ok a : Except ε α) >>= f = f a := rfl

lemma except_error_bind {ε α β : Type} (e : ε) (f : α → Except ε β) :
    (Except.error e : Except ε α) >>= f = .error e := rfl

lemma strLeads_hasSubAux {p l : List Char} (hl : strLeads p l = true) :
    hasSubAux p l = true := by
  cases l with
  | nil => simpa [hasSubAux] using hl
  | cons c t => simp [hasSubAux, hl]

lemma hasSubAux_mV {l : List Char} (hm : hasSubAux ['m', 'V'] l = true) :
    hasSubAux ['V'] l = true := by
  induction l with
  | nil => simp [hasSubAux, strLeads] at hm
  | cons c t ih =>
    simp only [hasSubAux, Bool.or_eq_true] at hm ⊢
    rcases hm with hm | hm
    · simp only [strLeads, Bool.and_eq_true] at hm
      exact Or.inr (strLeads_hasSubAux hm.2)
    · exact Or.inr (ih hm)

lemma hasSubStr_V_of_mV {s : String} (h : hasSubStr "mV" s = true) :
    hasSubStr "V" s = true :=
  hasSubAux_mV h

/-- The preamble array of the C8 counterexample: every fixed field is
well formed, but the step-size segment `STEP 5A` and the step-offset
segment `OFFSET 7Q` carry unrecognised unit suffixes. -/
def badStepArr : List String :=
  ["WFMPRE WFID:INDEX 3/VERT 500MA/HORIZ 1X/STEP 5A/OFFSET 7Q", "ENCDG:BIN",
    "NR.PT:3", "PT.FMT:XY", "XMULT:1", "XZERO:0", "XOFF:12", "XUNIT:V",
    "YMULT:1", "YZERO:0", "YOFF:0", "YUNIT:A"]

/-- The parse result of `badStepArr` (the parse succeeds). -/
def badStepPre : WaveformPreamble :=
  match parsePreamble badStepArr with
  | .ok p => p
  | .error _ => ⟨0, 0, 0, 0, 0, 0, 0, 0, 0, "", "", .str "", .str ""⟩

/-- C8 counterexample: parsing an array whose step size and step offset
have unrecognised unit suffixes does NOT raise; it succeeds and silently
leaves `step_size` as the raw string `"5A"` and `step_offset` as `"7Q"`,
contradicting the claim that an unrecognised unit suffix always causes a
parse error. -/
theorem parsePreamble_badSuffix_counterexample :
    parsePreamble badStepArr = .ok badStepPre ∧
    badStepPre.step_size = .str "5A" ∧
    badStepPre.step_offset = .str "7Q" :=
  ⟨rfl, rfl, rfl⟩

/-- C8 (amended): a malformed field at any of the consumed positions —
a colon split or numeric conversion failing at positions 2, 4, 6, 7, 8,
10 or 11, or the slash-segment access or float conversion of the step
size / step offset failing — always makes the whole parse return an
error, and no default is substituted (for the first field read, the
sample count, the error is propagated exactly); however a step size or
step offset whose unit suffix is unrecognised does not raise — the value
stays the raw string. -/
theorem parsePreamble_errors :
    (∀ (arr : List String) (f0 f2 : String) (e : PErr),
      pyIndex arr 0 = .ok f0 → pyIndex arr 2 = .ok f2 →
      fieldValue f2 >>= pyIntE = .error e → parsePreamble arr = .error e) ∧
    (∀ (arr : List String) (e : PErr),
      ((pyIndex arr 2 >>= fieldValue) >>= pyIntE = .error e ∨
       (pyIndex arr 4 >>= fieldValue) >>= pyFloatE = .error e ∨
       (pyIndex arr 6 >>= fieldValue) >>= pyIntE = .error e ∨
       (pyIndex arr 7 >>= fieldValue) = .error e ∨
       (pyIndex arr 8 >>= fieldValue) >>= pyFloatE = .error e ∨
       (pyIndex arr 10 >>= fieldValue) >>= pyIntE = .error e ∨
       (pyIndex arr 11 >>= fieldValue) = .error e ∨
       (pyIndex arr 0 >>= fun f0 => pyIndex (splitChar '/' f0) 3 >>= fun seg =>
         convStep (lstripSpace (dropStart "STEP" seg))) = .error e ∨
       (pyIndex arr 0 >>= fun f0 => pyIndex (splitChar '/' f0) 4 >>= fun seg =>
         convStep (lstripSpace (dropStart "OFFSET" seg))) = .error e) →
      ∃ e2, parsePreamble arr = .error e2) ∧
    (∀ (arr : List String) (p : WaveformPreamble) (f0 seg : String),
      parsePreamble arr = .ok p → pyIndex arr 0 = .ok f0 →
      pyIndex (splitChar '/' f0) 3 = .ok seg →
      hasSubStr "V" (lstripSpace (dropStart "STEP" seg)) = false →
      p.step_size = .str (lstripSpace (dropStart "STEP" seg))) ∧
    (∀ (arr : List String) (p : WaveformPreamble) (f0 seg : String),
      parsePreamble arr = .ok p → pyIndex arr 0 = .ok f0 →
      pyIndex (splitChar '/' f0) 4 = .ok seg →
      hasSubStr "V" (lstripSpace (dropStart "OFFSET" seg)) = false →
      p.step_offset = .str (lstripSpace (dropStart "OFFSET" seg))) := by
  refine ⟨?_, ?_, ?_, ?_⟩
  · intro arr f0 f2 e h0 h2 hfe
    simp only [parsePreamble, h0, h2, except_ok_bind]
    cases hv : fieldValue f2 with
    | error e2 =>
      rw [hv, except_error_bind] at hfe
      rw [except_error_bind]
      injection hfe with he
      rw [he]
    | ok v =>
      rw [hv, except_ok_bind] at hfe
      rw [except_ok_bind, hfe, except_error_bind]
  · intro arr e hdisj
    cases hp : parsePreamble arr with
    | error e2 => exact ⟨e2, rfl⟩
    | ok p =>
      exfalso
      simp only [parsePreamble, except_bind_ok, except_pure_ok] at hp
      obtain ⟨f0, h0, f2, h2, v2, hv2, n2, hn2, f4, h4, v4, hv4, x4, hx4,
        f8, h8, v8, hv8, y8, hy8, f6, h6, v6, hv6, o6, ho6, f10, h10, v10, hv10,
        o10, ho10, f7, h7, u7, hu7, f11, h11, u11, hu11, s3, hs3, st3, hst3,
        s4, hs4, st4, hst4, hpp⟩ := hp
      rcases hdisj with hd | hd | hd | hd | hd | hd | hd | hd | hd
      · rw [h2, except_ok_bind, hv2, except_ok_bind, hn2] at hd
        exact Except.noConfusion hd
      · rw [h4, except_ok_bind, hv4, except_ok_bind, hx4] at hd
        exact Except.noConfusion hd
      · rw [h6, except_ok_bind, hv6, except_ok_bind, ho6] at hd
        exact Except.noConfusion hd
      · rw [h7, except_ok_bind, hu7] at hd
        exact Except.noConfusion hd
      · rw [h8, except_ok_bind, hv8, except_ok_bind, hy8] at hd
        exact Except.noConfusion hd
      · rw [h10, except_ok_bind, hv10, except_ok_bind, ho10] at hd
        exact Except.noConfusion hd
      · rw [h11, except_ok_bind, hu11] at hd
        exact Except.noConfusion hd
      · simp only [h0, except_ok_bind, hs3] at hd
        rw [hst3] at hd
        exact Except.noConfusion hd
      · simp only [h0, except_ok_bind, hs4] at hd
        rw [hst4] at hd
        exact Except.noConfusion hd
  · intro arr p f0 seg hok h0 hseg hV
    simp only [parsePreamble, except_bind_ok, except_pure_ok] at hok
    obtain ⟨g0, hg0, f2, h2, v2, hv2, n2, hn2, f4, h4, v4, hv4, x4, hx4,
      f8, h8, v8, hv8, y8, hy8, f6, h6, v6, hv6, o6, ho6, f10, h10, v10, hv10,
      o10, ho10, f7, h7, u7, hu7, f11, h11, u11, hu11, s3, hs3, st3, hst3,
      s4, hs4, st4, hst4, hp⟩ := hok
    subst hp
    have hg : f0 = g0 := by
      rw [h0] at hg0
      injection hg0 with he
    subst hg
    have hs : seg = s3 := by
      rw [hseg] at hs3
      injection hs3 with he
    subst hs
    have hmV : hasSubStr "mV" (lstripSpace (dropStart "STEP" seg)) = false := by
      by_contra hc
      rw [Bool.not_eq_false] at hc
      rw [hasSubStr_V_of_mV hc] at hV
      simp at hV
    simp only [convStep, hmV, hV, Bool.false_eq_true, if_false] at hst3
    rw [except_pure_ok] at hst3
    exact hst3.symm
  · intro arr p f0 seg hok h0 hseg hV
    simp only [parsePreamble, except_bind_ok, except_pure_ok] at hok
    obtain ⟨g0, hg0, f2, h2, v2, hv2, n2, hn2, f4, h4, v4, hv4, x4, hx4,
      f8, h8, v8, hv8, y8, hy8, f6, h6, v6, hv6, o6, ho6, f10, h10, v10, hv10,
      o10, ho10, f7, h7, u7, hu7, f11, h11, u11, hu11, s3, hs3, st3, hst3,
      s4, hs4, st4, hst4, hp⟩ := hok
    subst hp
    have hg : f0 = g0 := by
      rw [h0] at hg0
      injection hg0 with he
    subst hg
    have hs : seg = s4 := by
      rw [hseg] at hs4
      injection hs4 with he
    subst hs
    have hmV : hasSubStr "mV" (lstripSpace (dropStart "OFFSET" seg)) = false := by
      by_contra hc
      rw [Bool.not_eq_false] at hc
      rw [hasSubStr_V_of_mV hc] at hV
      simp at hV
    simp only [convStep, hmV, hV, Bool.false_eq_true, if_false] at hst4
    rw [except_pure_ok] at hst4
    exact hst4.symm

/-- Witness for C8 (amended): a field-2 access with no colon makes the
whole parse fail with that exact error, a non-numeric vertical offset
(field 10) makes the parse fail, and the bad-suffix array keeps both its
raw step strings. -/
theorem parsePreamble_errors_witness :
    parsePreamble ["A/B/C/STEP 1V/OFFSET 0V", "x", "NOCOLON"] =
      .error .indexError ∧
    (∃ e2, parsePreamble ["WFMPRE WFID:A/B/C/STEP 1V/OFFSET 0V", "ENCDG:BIN",
      "NR.PT:3", "PT.FMT:XY", "XMULT:1", "XZERO:0", "XOFF:12", "XUNIT:V",
      "YMULT:1", "YZERO:0", "YOFF:abc", "YUNIT:A"] = .error e2) ∧
    badStepPre.step_size = .str "5A" ∧
    badStepPre.step_offset = .str "7Q" := by
  refine ⟨?_, ?_, ?_, ?_⟩
  · exact parsePreamble_errors.1 ["A/B/C/STEP 1V/OFFSET 0V", "x", "NOCOLON"]
      "A/B/C/STEP 1V/OFFSET 0V" "NOCOLON" .indexError rfl rfl rfl
  · exact parsePreamble_errors.2.1 ["WFMPRE WFID:A/B/C/STEP 1V/OFFSET 0V",
      "ENCDG:BIN", "NR.PT:3", "PT.FMT:XY", "XMULT:1", "XZERO:0", "XOFF:12",
      "XUNIT:V", "YMULT:1", "YZERO:0", "YOFF:abc", "YUNIT:A"] .valueError
      (Or.inr (Or.inr (Or.inr (Or.inr (Or.inr (Or.inl rfl))))))
  · exact parsePreamble_errors.2.2.1 badStepArr badStepPre
      "WFMPRE WFID:INDEX 3/VERT 500MA/HORIZ 1X/STEP 5A/OFFSET 7Q"
      "STEP 5A" rfl rfl rfl rfl
  · exact parsePreamble_errors.2.2.2 badStepArr badStepPre
      "WFMPRE WFID:INDEX 3/VERT 500MA/HORIZ 1X/STEP 5A/OFFSET 7Q"
      "OFFSET 7Q" rfl rfl rfl rfl

/-! ## Curve-decoder lemmas -/

lemma strideFilter_length (n : Nat) :
    ((List.range n).filter fun i => decide (i % 4 = 0 ∧ i + 4 ≤ n)).length = n / 4 := by
  induction n using Nat.strong_induction_on with
  | _ n ih =>
    by_cases h4 : n < 4
    · have he : ((List.range n).filter fun i => decide (i % 4 = 0 ∧ i + 4 ≤ n)) = [] := by
        rw [List.filter_eq_nil_iff]
        intro a ha
        simp only [List.mem_range] at ha
        simp only [decide_eq_true_eq, not_and]
        omega
      rw [he, List.length_nil, Nat.div_eq_of_lt h4]
    · push_neg at h4
      obtain ⟨m, rfl⟩ : ∃ m, n = 4 + m := ⟨n - 4, by omega⟩
      rw [List.range_add, List.filter_append, List.length_append]
      have hA : ((List.range 4).filter fun i => decide (i % 4 = 0 ∧ i + 4 ≤ 4 + m)) =
          [0] := by
        have h04 : List.range 4 = [0, 1, 2, 3] := rfl
        rw [h04]
        simp [List.filter_cons, Nat.le_add_right]
      have hB : ((List.range m).map (4 + ·)).filter
            (fun i => decide (i % 4 = 0 ∧ i + 4 ≤ 4 + m)) =
          ((List.range m).filter fun i => decide (i % 4 = 0 ∧ i + 4 ≤ m)).map (4 + ·) := by
        rw [List.filter_map]
        congr 1
        apply List.filter_congr
        intro a ha
        simp only [Function.comp_apply]
        rw [decide_eq_decide]
        constructor
        · intro hc
          refine ⟨?_, by omega⟩
          omega
        · intro hc
          refine ⟨?_, by omega⟩
          omega
      rw [hA, hB, List.length_map, ih m (by omega)]
      have hdiv : (4 + m) / 4 = m / 4 + 1 := by
        rw [Nat.add_comm]
        exact Nat.add_div_right m (by norm_num)
      rw [hdiv]
      simp [Nat.add_comm]

lemma pySlice_nat {α : Type} (l : List α) (a c : Nat) (hc : c ≤ l.length) :
    pySlice l (a : Int) ((l.length : Int) - (c : Int)) =
      (l.drop a).take (l.length - c - a) := by
  simp only [pySlice]
  have hs : ¬((a : Int) < 0) := by omega
  have he : ¬(((l.length : Int) - (c : Int)) < 0) := by omega
  rw [if_neg hs, if_neg he]
  have hemin : min ((l.length : Int) - (c : Int)) ((l.length : Nat) : Int) =
      (l.length : Int) - (c : Int) := min_eq_left (by omega)
  rw [hemin]
  by_cases hal : a ≤ l.length
  · have hsmin : min ((a : Nat) : Int) ((l.length : Nat) : Int) = ((a : Nat) : Int) :=
      min_eq_left (by omega)
    rw [hsmin]
    have h1 : ((a : Nat) : Int).toNat = a := by omega
    have h2 : ((l.length : Int) - (c : Int) - ((a : Nat) : Int)).toNat =
        l.length - c - a := by omega
    rw [h1, h2]
  · push_neg at hal
    have hsmin : min ((a : Nat) : Int) ((l.length : Nat) : Int) =
        ((l.length : Nat) : Int) := min_eq_right (by omega)
    rw [hsmin]
    have hd1 : l.drop (((l.length : Nat) : Int)).toNat = [] := by
      simp
    have hd2 : l.drop a = [] := List.drop_eq_nil_of_le (by omega)
    rw [hd1, hd2]
    simp

lemma if_lt_zero_max (z : Int) : (if z < 0 then 0 else z) = max 0 z := by
  rcases lt_or_le z 0 with h | h
  · rw [if_pos h, max_eq_left (le_of_lt h)]
  · rw [if_neg (not_lt.mpr h), max_eq_right h]

/-- A preamble record with unit scale factors and zero offsets. -/
def unitScalePre : WaveformPreamble :=
  ⟨1, 1, 1024, 1024, 1, 1024, 1024, 0, 0, "V", "A", .num 1, .num 0⟩

/-- C7: the curve decoder walks the point-data region at offsets that are
multiples of 4 leaving at least 4 bytes, takes 2 bytes of unsigned
big-endian raw X and then 2 of raw Y, and produces the clamped
offset-adjusted coordinates `max 0 (raw - offset)` (never negative), the
calibrated point being the coordinates scaled by the preamble scale
factors; with unit scales, zero offsets and point data `[0,10,0,20]` the
result is the single raw pair `(10, 20)` and calibrated `(10, 20)`. -/
theorem curve_decode :
    (∀ (pre : WaveformPreamble) (nHead nData nChecksum : Nat) (raw : List Nat),
      (buildCurve pre nHead nData nChecksum 2 2 raw).points_coordinates =
        ((List.range (buildCurve pre nHead nData nChecksum 2 2
              raw).raw_points_coordinates.length).filter
            fun i => decide (i % 4 = 0 ∧ i + 4 ≤
              (buildCurve pre nHead nData nChecksum 2 2
                raw).raw_points_coordinates.length)).map
          fun i =>
            (max 0 ((natFromBytesBE (((buildCurve pre nHead nData nChecksum 2 2
                  raw).raw_points_coordinates.drop i).take 2) : Int)
              - pre.horizontal_offset),
             max 0 ((natFromBytesBE (((buildCurve pre nHead nData nChecksum 2 2
                  raw).raw_points_coordinates.drop (i + 2)).take 2) : Int)
              - pre.vertical_offset))) ∧
    (∀ (pre : WaveformPreamble) (nHead nData nChecksum : Nat) (raw : List Nat)
        (q : Int × Int),
      q ∈ (buildCurve pre nHead nData nChecksum 2 2 raw).points_coordinates →
      0 ≤ q.1 ∧ 0 ≤ q.2) ∧
    (buildCurve unitScalePre 25 2 1 2 2
      (List.replicate 27 0 ++ [0, 10, 0, 20] ++ [0])).points_coordinates =
      [(10, 20)] ∧
    (buildCurve unitScalePre 25 2 1 2 2
      (List.replicate 27 0 ++ [0, 10, 0, 20] ++ [0])).points =
      [((10 : ℚ), (20 : ℚ))] := by
  have hgen : ∀ (pre : WaveformPreamble) (nHead nData nChecksum : Nat) (raw : List Nat),
      (buildCurve pre nHead nData nChecksum 2 2 raw).points_coordinates =
        ((List.range (buildCurve pre nHead nData nChecksum 2 2
              raw).raw_points_coordinates.length).filter
            fun i => decide (i % 4 = 0 ∧ i + 4 ≤
              (buildCurve pre nHead nData nChecksum 2 2
                raw).raw_points_coordinates.length)).map
          fun i =>
            (max 0 ((natFromBytesBE (((buildCurve pre nHead nData nChecksum 2 2
                  raw).raw_points_coordinates.drop i).take 2) : Int)
              - pre.horizontal_offset),
             max 0 ((natFromBytesBE (((buildCurve pre nHead nData nChecksum 2 2
                  raw).raw_points_coordinates.drop (i + 2)).take 2) : Int)
              - pre.vertical_offset)) := by
    intro pre nHead nData nChecksum raw
    simp only [buildCurve]
    apply List.map_congr_left
    intro i hi
    rw [if_lt_zero_max, if_lt_zero_max]
  refine ⟨hgen, ?_, by decide, ?_⟩
  · intro pre nHead nData nChecksum raw q hq
    rw [hgen] at hq
    obtain ⟨i, hi, rfl⟩ := List.mem_map.mp hq
    exact ⟨le_max_left _ _, le_max_left _ _⟩
  · have h1 : (buildCurve unitScalePre 25 2 1 2 2
        (List.replicate 27 0 ++ [0, 10, 0, 20] ++ [0])).points =
        (buildCurve unitScalePre 25 2 1 2 2
          (List.replicate 27 0 ++ [0, 10, 0, 20] ++ [0])).points_coordinates.map
          (fun q => ((q.1 : ℚ) * unitScalePre.x_scale_factor,
            (q.2 : ℚ) * unitScalePre.y_scale_factor)) := rfl
    have h2 : (buildCurve unitScalePre 25 2 1 2 2
        (List.replicate 27 0 ++ [0, 10, 0, 20] ++ [0])).points_coordinates =
        [(10, 20)] := by
      decide
    rw [h1, h2]
    simp [unitScalePre]

/-- Witness for C7: the clamp property applied to the concrete decoded
pair `(10, 20)`. -/
theorem curve_decode_witness :
    0 ≤ ((10 : Int), (20 : Int)).1 ∧ 0 ≤ ((10 : Int), (20 : Int)).2 :=
  curve_decode.2.1 unitScalePre 25 2 1
    (List.replicate 27 0 ++ [0, 10, 0, 20] ++ [0]) (10, 20) (by decide)

/-- C10: for any buffer, the point-data region is the slice between
`n_bytes_for_head + n_bytes_for_data` and `len - n_bytes_for_checksum`,
exactly `floor(N/4)` pairs are decoded from it (trailing bytes of an
incomplete stride are dropped silently), and the raw-coordinate and
calibrated-point lists have that same length, the i-th point being the
scaled i-th raw pair. -/
theorem curve_pair_count (pre : WaveformPreamble) (nHead nData nChecksum : Nat)
    (raw : List Nat) (hc : nChecksum ≤ raw.length) :
    (buildCurve pre nHead nData nChecksum 2 2 raw).raw_points_coordinates =
      (raw.drop (nHead + nData)).take (raw.length - nChecksum - (nHead + nData)) ∧
    (buildCurve pre nHead nData nChecksum 2 2 raw).points_coordinates.length =
      ((raw.drop (nHead + nData)).take
        (raw.length - nChecksum - (nHead + nData))).length / 4 ∧
    (buildCurve pre nHead nData nChecksum 2 2 raw).points.length =
      ((raw.drop (nHead + nData)).take
        (raw.length - nChecksum - (nHead + nData))).length / 4 ∧
    (buildCurve pre nHead nData nChecksum 2 2 raw).points =
      (buildCurve pre nHead nData nChecksum 2 2 raw).points_coordinates.map
        (fun q => ((q.1 : ℚ) * pre.x_scale_factor, (q.2 : ℚ) * pre.y_scale_factor)) := by
  have hcast : ((nHead : Int) + (nData : Int)) = (((nHead + nData : Nat)) : Int) := by
    push_cast
    ring
  have hslice : pySlice raw ((nHead : Int) + (nData : Int))
      ((raw.length : Int) - (nChecksum : Int)) =
      (raw.drop (nHead + nData)).take (raw.length - nChecksum - (nHead + nData)) := by
    rw [hcast]
    exact pySlice_nat raw (nHead + nData) nChecksum hc
  simp only [buildCurve]
  refine ⟨hslice, ?_, ?_, trivial⟩
  · rw [List.length_map, hslice]
    exact strideFilter_length _
  · rw [List.length_map, List.length_map, hslice]
    exact strideFilter_length _

/-- Witness for C10: a 9-byte buffer with no head bytes, a 1-byte
checksum, and a region of 8 bytes, hence two decoded pairs. -/
theorem curve_pair_count_witness :
    (buildCurve ⟨1, 2, 1024, 2048, 3, 1024, 3072, 15, 25, "V", "A",
        .num 1, .num 0⟩ 0 0 1 2 2
      [0, 10, 0, 20, 0, 30, 0, 40, 9]).raw_points_coordinates =
      (([0, 10, 0, 20, 0, 30, 0, 40, 9] : List Nat).drop (0 + 0)).take
        (([0, 10, 0, 20, 0, 30, 0, 40, 9] : List Nat).length - 1 - (0 + 0)) ∧
    (buildCurve ⟨1, 2, 1024, 2048, 3, 1024, 3072, 15, 25, "V", "A",
        .num 1, .num 0⟩ 0 0 1 2 2
      [0, 10, 0, 20, 0, 30, 0, 40, 9]).points_coordinates.length =
      ((([0, 10, 0, 20, 0, 30, 0, 40, 9] : List Nat).drop (0 + 0)).take
        (([0, 10, 0, 20, 0, 30, 0, 40, 9] : List Nat).length - 1 - (0 + 0))).length / 4 ∧
    (buildCurve ⟨1, 2, 1024, 2048, 3, 1024, 3072, 15, 25, "V", "A",
        .num 1, .num 0⟩ 0 0 1 2 2
      [0, 10, 0, 20, 0, 30, 0, 40, 9]).points.length =
      ((([0, 10, 0, 20, 0, 30, 0, 40, 9] : List Nat).drop (0 + 0)).take
        (([0, 10, 0, 20, 0, 30, 0, 40, 9] : List Nat).length - 1 - (0 + 0))).length / 4 ∧
    (buildCurve ⟨1, 2, 1024, 2048, 3, 1024, 3072, 15, 25, "V", "A",
        .num 1, .num 0⟩ 0 0 1 2 2
      [0, 10, 0, 20, 0, 30, 0, 40, 9]).points =
      (buildCurve ⟨1, 2, 1024, 2048, 3, 1024, 3072, 15, 25, "V", "A",
          .num 1, .num 0⟩ 0 0 1 2 2
        [0, 10, 0, 20, 0, 30, 0, 40, 9]).points_coordinates.map
        (fun q => ((q.1 : ℚ) * (2 : ℚ), (q.2 : ℚ) * (3 : ℚ))) :=
  curve_pair_count ⟨1, 2, 1024, 2048, 3, 1024, 3072, 15, 25, "V", "A",
    .num 1, .num 0⟩ 0 0 1 [0, 10, 0, 20, 0, 30, 0, 40, 9] (by decide)

end Pymeasure

